import Mathlib

/-!
Verification of the security middleware of the kanwerpolytex-website
repository (`src/middleware.ts`): per-request CSP nonce generation,
CSP policy-string construction, security-header application, and the
static-asset matcher.  All definitions are shallow embeddings of the
TypeScript source; randomness (the `crypto.getRandomValues` draw) is
modelled by passing the drawn bytes explicitly.
-/

namespace Middleware

/-- `Array.prototype.join(sep)` on a list of strings. -/
def joinSep (sep : String) : List String → String
  | [] => ""
  | [d] => d
  | d :: rest => d ++ sep ++ joinSep sep rest

/-- The 64 characters of the standard Base64 alphabet, in table order. -/
def b64Alphabet : List Char :=
  "ABCDEFGHIJKLMNOPQRSTUVWXYZabcdefghijklmnopqrstuvwxyz0123456789+/".toList

/-- The character set of `btoa` output: the Base64 alphabet plus `=` padding. -/
def B64CHARS : List Char := b64Alphabet ++ ['=']

/-- Base64 table lookup for one 6-bit group (all indices produced by
`btoaChunks` on bytes below 256 are below 64, so the default is never hit). -/
def b64Char (i : Nat) : Char := b64Alphabet.getD i 'A'

/-- The Edge runtime's `btoa` on a binary string of the given byte values:
standard Base64, three input bytes per four output characters, the final
partial group padded with `=`. -/
def btoaChunks : List Nat → List Char
  | [] => []
  | [b0] => [b64Char (b0 / 4), b64Char (b0 % 4 * 16), '=', '=']
  | [b0, b1] => [b64Char (b0 / 4), b64Char (b0 % 4 * 16 + b1 / 16), b64Char (b1 % 16 * 4), '=']
  | b0 :: b1 :: b2 :: rest =>
      b64Char (b0 / 4) :: b64Char (b0 % 4 * 16 + b1 / 16) ::
        b64Char (b1 % 16 * 4 + b2 / 64) :: b64Char (b2 % 64) :: btoaChunks rest

/-- `btoa` as a string producer. -/
def btoa (bytes : List Nat) : String := ⟨btoaChunks bytes⟩

/-- `generateNonce` from `src/middleware.ts`: fill a `Uint8Array` with
cryptographically strong random bytes (modelled as the explicit list of the
drawn bytes, each below 256), build the corresponding binary string, and
Base64-encode it with `btoa`. -/
def generateNonce (randomBytes : List (Fin 256)) : String :=
  btoa (randomBytes.map Fin.val)

/-- `ALLOWED_SCRIPT_HOSTS` from `src/middleware.ts`. -/
def ALLOWED_SCRIPT_HOSTS : List String := ["'self'"]

/-- `ALLOWED_STYLE_HOSTS` from `src/middleware.ts`. -/
def ALLOWED_STYLE_HOSTS : List String := ["'self'", "https://fonts.googleapis.com"]

/-- `ALLOWED_IMG_HOSTS` from `src/middleware.ts`. -/
def ALLOWED_IMG_HOSTS : List String := ["'self'", "data:"]

/-- `ALLOWED_FONT_HOSTS` from `src/middleware.ts`. -/
def ALLOWED_FONT_HOSTS : List String := ["'self'", "https://fonts.gstatic.com"]

/-- `ALLOWED_CONNECT_HOSTS` from `src/middleware.ts`. -/
def ALLOWED_CONNECT_HOSTS : List String := ["'self'"]

/-- The three environment toggles read at module top of `src/middleware.ts`:
`isProd`, `cspReportUri` (`undefined` modelled as `none`) and `useReportOnly`. -/
structure SecurityEnv where
  isProd : Bool
  cspReportUri : Option String
  useReportOnly : Bool

/-- The directive array built inside `buildCSP`, generalized over the five
allowlist constants it reads (`cspDirectives` below instantiates them with the
module-level constants, exactly as the source closure does).  The `report-uri`
guard mirrors JavaScript truthiness of `if (cspReportUri)`: an absent or empty
string skips the directive. -/
def cspDirectivesWith (scriptHosts styleHosts imgHosts fontHosts connectHosts : List String)
    (env : SecurityEnv) (nonce : String) : List String :=
  ([ "default-src 'self'"
   , "script-src " ++ joinSep " " scriptHosts ++ " 'nonce-" ++ nonce ++ "'"
   , "style-src " ++ joinSep " " styleHosts ++ " 'nonce-" ++ nonce ++ "'"
   , "img-src " ++ joinSep " " imgHosts
   , "font-src " ++ joinSep " " fontHosts
   , "connect-src " ++ joinSep " " connectHosts
   , "object-src 'none'"
   , "frame-ancestors 'none'"
   , "base-uri 'self'"
   , "form-action 'self'"
   ] ++ (if env.isProd then ["upgrade-insecure-requests"] else []))
   ++ (match env.cspReportUri with
       | some uri => if uri = "" then [] else ["report-uri " ++ uri]
       | none => [])

/-- The `directives` array of `buildCSP` with the program's allowlists. -/
def cspDirectives (env : SecurityEnv) (nonce : String) : List String :=
  cspDirectivesWith ALLOWED_SCRIPT_HOSTS ALLOWED_STYLE_HOSTS ALLOWED_IMG_HOSTS
    ALLOWED_FONT_HOSTS ALLOWED_CONNECT_HOSTS env nonce

/-- `buildCSP` from `src/middleware.ts`: the directive array joined with
`'; '`. -/
def buildCSP (env : SecurityEnv) (nonce : String) : String :=
  joinSep "; " (cspDirectives env nonce)

/-- `Headers.set` on a header list whose names are already normalized:
replace the value of an existing entry in place, or append a new entry. -/
def setHeader (hs : List (String × String)) (k v : String) : List (String × String) :=
  if hs.any (fun p => p.fst == k) then
    hs.map (fun p => if p.fst = k then (k, v) else p)
  else hs ++ [(k, v)]

/-- `Headers.get`: the value of the first entry with the given name. -/
def getHeader (hs : List (String × String)) (k : String) : Option String :=
  (hs.find? (fun p => p.fst == k)).map Prod.snd

/-- The slice of `NextResponse` state the middleware touches: the response
headers, the forwarded request headers, and the untouched pass-through body
and status. -/
structure NextResponseT where
  status : Nat
  body : Option String
  headers : List (String × String)
  requestHeaders : List (String × String)

/-- `NextResponse.next({request: {headers}})`: a pass-through response
carrying the given forwarded request headers, with no body, status 200 and no
response headers set yet. -/
def nextResponse (requestHeaders : List (String × String)) : NextResponseT :=
  { status := 200, body := none, headers := [], requestHeaders := requestHeaders }

/-- The `Permissions-Policy` value assembled in `applySecurityHeaders`. -/
def PERMISSIONS_POLICY : String :=
  joinSep ", "
    [ "accelerometer=()", "ambient-light-sensor=()", "autoplay=()", "battery=()", "camera=()"
    , "display-capture=()", "document-domain=()", "encrypted-media=()", "fullscreen=(self)"
    , "geolocation=()", "gyroscope=()", "hid=()", "magnetometer=()", "microphone=()", "midi=()"
    , "payment=()", "picture-in-picture=(self)", "publickey-credentials-get=()"
    , "screen-wake-lock=()", "sync-xhr=()", "usb=()", "vr=()", "xr-spatial-tracking=()" ]

/-- `applySecurityHeaders` from `src/middleware.ts`: sets the fixed hardening
headers in source order, then exactly one of the two CSP header variants
according to `useReportOnly`, then exposes the nonce as `x-csp-nonce`. -/
def applySecurityHeaders (env : SecurityEnv) (res : NextResponseT)
    (cspValue nonce : String) : NextResponseT :=
  let hs := res.headers
  let hs := setHeader hs "Referrer-Policy" "strict-origin-when-cross-origin"
  let hs := setHeader hs "X-Frame-Options" "DENY"
  let hs := setHeader hs "X-Content-Type-Options" "nosniff"
  let hs := setHeader hs "X-DNS-Prefetch-Control" "off"
  let hs := setHeader hs "Strict-Transport-Security" "max-age=63072000; includeSubDomains; preload"
  let hs := setHeader hs "Permissions-Policy" PERMISSIONS_POLICY
  let hs := setHeader hs "X-Permitted-Cross-Domain-Policies" "none"
  let hs := setHeader hs "Cross-Origin-Resource-Policy" "same-origin"
  let hs :=
    if env.useReportOnly then setHeader hs "Content-Security-Policy-Report-Only" cspValue
    else setHeader hs "Content-Security-Policy" cspValue
  let hs := setHeader hs "x-csp-nonce" nonce
  { res with headers := hs }

/-- `middleware` from `src/middleware.ts`: generate a nonce from the drawn
random bytes, overwrite `x-csp-nonce` on the forwarded request headers, create
the pass-through response, build the CSP and apply all security headers. -/
def middleware (env : SecurityEnv) (reqHeaders : List (String × String))
    (randomBytes : List (Fin 256)) : NextResponseT :=
  let nonce := generateNonce randomBytes
  let requestHeaders := setHeader reqHeaders "x-csp-nonce" nonce
  let res := nextResponse requestHeaders
  let csp := buildCSP env nonce
  applySecurityHeaders env res csp nonce

/-- The literal alternatives of the matcher's negative lookahead, in pattern
order. -/
def EXCLUDED_PREFIXES : List String :=
  ["_next/static", "_next/image", "favicon.ico", "sitemap.xml", "robots.txt",
   "manifest.json", "assets"]

/-- The extension alternatives of the matcher's `.*\.(?:…)$` branch. -/
def STATIC_EXTENSIONS : List String :=
  ["png", "jpg", "jpeg", "gif", "webp", "avif", "svg", "ico", "css", "js", "map",
   "txt", "xml", "json"]

/-- The `config.matcher` regex translated: `/((?!A|B|…|.*\.(?:e1|…)$).*)`
matches a pathname `/rest` exactly when no literal alternative is a prefix of
`rest` and `rest` does not end in a dot followed by a listed extension.
`rest` is the pathname with its leading slash stripped. -/
def matcherMatches (rest : String) : Bool :=
  !(EXCLUDED_PREFIXES.any (fun p => p.data.isPrefixOf rest.data)
    || STATIC_EXTENSIONS.any (fun e => ("." ++ e).data.isSuffixOf rest.data))

/-- Next.js invokes `middleware` exactly for requests whose pathname matches
`config.matcher`; excluded paths never reach it (`none`: no nonce generation,
no header work). -/
def handleRequest (env : SecurityEnv) (reqHeaders : List (String × String))
    (randomBytes : List (Fin 256)) (rest : String) : Option NextResponseT :=
  if matcherMatches rest then some (middleware env reqHeaders randomBytes) else none

/-- The directive's name: its characters up to the first space. -/
def directiveName (d : String) : String := ⟨d.data.takeWhile (fun c => c != ' ')⟩

/-- Literal segment before the first nonce occurrence. -/
def SEG1 : String := "default-src 'self'; script-src 'self' "

/-- Literal segment between the two nonce occurrences. -/
def SEG2 : String := "; style-src 'self' https://fonts.googleapis.com "

/-- Literal segment after the second nonce occurrence, before the
environment-dependent tail. -/
def SEG3 : String := "; img-src 'self' data:; font-src 'self' https://fonts.gstatic.com; connect-src 'self'; object-src 'none'; frame-ancestors 'none'; base-uri 'self'; form-action 'self'"

/-- The environment-dependent tail of the policy string. -/
def cspTail (env : SecurityEnv) : String :=
  (if env.isProd then "; upgrade-insecure-requests" else "")
    ++ (match env.cspReportUri with
        | some uri => if uri = "" then "" else "; report-uri " ++ uri
        | none => "")

/-- The pattern whose absence claim C6 asserts. -/
def REPPAT : List Char := "report-uri".data

/-- The policy segment before the first nonce, closed under the quote and
dash that introduce the nonce. -/
def ADATA : List Char := "default-src 'self'; script-src 'self' 'nonce-".data

/-- The policy segment between the two nonce occurrences. -/
def BDATA : List Char := "'; style-src 'self' https://fonts.googleapis.com 'nonce-".data

/-! ### Helper lemmas: Base64 output shape -/

theorem b64Char_mem_b64Alphabet (i : Nat) : b64Char i ∈ b64Alphabet := by
  unfold b64Char List.getD
  by_cases h : i < 64
  · exact (by decide : ∀ j, j < 64 → (b64Alphabet.get? j).getD 'A' ∈ b64Alphabet) i h
  · have h64 : b64Alphabet.length = 64 := by decide
    rw [List.get?_len_le (by omega)]
    decide

theorem mem_B64CHARS_of_b64Char (i : Nat) : b64Char i ∈ B64CHARS :=
  List.mem_append_left _ (b64Char_mem_b64Alphabet i)

theorem btoaChunks_subset : ∀ bs : List Nat, ∀ c ∈ btoaChunks bs, c ∈ B64CHARS
  | [] => by intro c h; simp [btoaChunks] at h
  | [b0] => by
      intro c h
      simp only [btoaChunks, List.mem_cons, List.not_mem_nil, or_false] at h
      rcases h with h | h | h | h <;> subst h
      · exact mem_B64CHARS_of_b64Char _
      · exact mem_B64CHARS_of_b64Char _
      · decide
      · decide
  | [b0, b1] => by
      intro c h
      simp only [btoaChunks, List.mem_cons, List.not_mem_nil, or_false] at h
      rcases h with h | h | h | h <;> subst h
      · exact mem_B64CHARS_of_b64Char _
      · exact mem_B64CHARS_of_b64Char _
      · exact mem_B64CHARS_of_b64Char _
      · decide
  | b0 :: b1 :: b2 :: rest => by
      intro c h
      simp only [btoaChunks, List.mem_cons] at h
      rcases h with h | h | h | h | h
      · subst h; exact mem_B64CHARS_of_b64Char _
      · subst h; exact mem_B64CHARS_of_b64Char _
      · subst h; exact mem_B64CHARS_of_b64Char _
      · subst h; exact mem_B64CHARS_of_b64Char _
      · exact btoaChunks_subset rest c h

theorem btoaChunks_length : ∀ bs : List Nat, (btoaChunks bs).length = (bs.length + 2) / 3 * 4
  | [] => rfl
  | [_] => by simp [btoaChunks]
  | [_, _] => by simp [btoaChunks]
  | _ :: _ :: _ :: rest => by
      simp only [btoaChunks, List.length_cons, btoaChunks_length rest]
      omega

theorem generateNonce_chars (randomBytes : List (Fin 256)) :
    ∀ c ∈ (generateNonce randomBytes).data, c ∈ B64CHARS :=
  btoaChunks_subset (randomBytes.map Fin.val)

theorem generateNonce_length (randomBytes : List (Fin 256)) :
    (generateNonce randomBytes).length = (randomBytes.length + 2) / 3 * 4 := by
  show (btoaChunks (randomBytes.map Fin.val)).length = _
  rw [btoaChunks_length, List.length_map]

/-! ### Helper lemmas: the header map -/

theorem find?_map_replace_same (hs : List (String × String)) (k v : String)
    (h : hs.any (fun p => p.fst == k) = true) :
    (hs.map (fun p => if p.fst = k then (k, v) else p)).find? (fun p => p.fst == k)
      = some (k, v) := by
  induction hs with
  | nil => simp at h
  | cons p hs ih =>
      obtain ⟨pk, pv⟩ := p
      simp only [List.any_cons, Bool.or_eq_true] at h
      by_cases hp : pk = k
      · simp only [List.map_cons, List.find?_cons, hp, eq_self_iff_true, if_true,
          beq_self_eq_true]
      · have hpk : (pk == k) = false := by simpa using hp
        simp only [List.map_cons, List.find?_cons, if_neg hp, hpk]
        apply ih
        rcases h with h | h
        · exact absurd (by simpa using h) hp
        · exact h

theorem find?_map_replace_ne (hs : List (String × String)) (k v k' : String)
    (hne : k' ≠ k) :
    (hs.map (fun p => if p.fst = k then (k, v) else p)).find? (fun p => p.fst == k')
      = hs.find? (fun p => p.fst == k') := by
  induction hs with
  | nil => rfl
  | cons p hs ih =>
      obtain ⟨pk, pv⟩ := p
      by_cases hp : pk = k
      · have hkk : (k == k') = false := by simpa using fun hh => hne hh.symm
        have hpk : (pk == k') = false := by rw [hp]; exact hkk
        simp only [List.map_cons, List.find?_cons, hp, eq_self_iff_true, if_true, hkk, hpk]
        exact ih
      · by_cases hp' : pk = k'
        · simp only [List.map_cons, List.find?_cons, hp', if_neg hne, beq_self_eq_true]
        · have hpk' : (pk == k') = false := by simpa using hp'
          simp only [List.map_cons, List.find?_cons, if_neg hp, hpk']
          exact ih

theorem find?_append_single (hs : List (String × String)) (k v k' : String)
    (h : hs.any (fun p => p.fst == k) = false) :
    (hs ++ [(k, v)]).find? (fun p => p.fst == k')
      = if k' = k then some (k, v) else hs.find? (fun p => p.fst == k') := by
  rw [List.find?_append]
  by_cases hk : k' = k
  · rw [hk, if_pos rfl]
    have hnone : hs.find? (fun p => p.fst == k) = none := by
      rw [List.find?_eq_none]
      intro x hx hbeq
      have hany : hs.any (fun p => p.fst == k) = true := List.any_eq_true.mpr ⟨x, hx, hbeq⟩
      rw [h] at hany
      exact Bool.false_ne_true hany
    rw [hnone, List.find?_cons_of_pos _ (by simp)]
    rfl
  · rw [if_neg hk]
    have hone : List.find? (fun p => p.fst == k') [(k, v)] = none := by
      rw [List.find?_cons_of_neg _ (by simpa using fun hh => hk hh.symm)]
      rfl
    rw [hone]
    cases hs.find? (fun p => p.fst == k') <;> rfl

theorem getHeader_setHeader (hs : List (String × String)) (k v k' : String) :
    getHeader (setHeader hs k v) k' = if k' = k then some v else getHeader hs k' := by
  unfold setHeader getHeader
  by_cases h : hs.any (fun p => p.fst == k) = true
  · rw [if_pos h]
    by_cases hk : k' = k
    · rw [hk, if_pos rfl, find?_map_replace_same hs k v h]
      rfl
    · rw [find?_map_replace_ne hs k v k' hk, if_neg hk]
  · rw [if_neg h]
    rw [find?_append_single hs k v k' (Bool.eq_false_iff.mpr h)]
    by_cases hk : k' = k
    · rw [if_pos hk, if_pos hk]
      rfl
    · rw [if_neg hk, if_neg hk]

theorem getHeader_setHeader_same (hs : List (String × String)) (k v : String) :
    getHeader (setHeader hs k v) k = some v := by
  rw [getHeader_setHeader, if_pos rfl]

theorem getHeader_setHeader_ne (hs : List (String × String)) (k v k' : String)
    (hne : k' ≠ k) : getHeader (setHeader hs k v) k' = getHeader hs k' := by
  rw [getHeader_setHeader, if_neg hne]

set_option maxRecDepth 8192 in
theorem buildCSP_decomp (env : SecurityEnv) (n : String) :
    (buildCSP env n).data =
      SEG1.data ++ ("'nonce-".data ++ (n.data ++ ("'".data ++ (SEG2.data ++ ("'nonce-".data
        ++ (n.data ++ ("'".data ++ (SEG3.data ++ (cspTail env).data)))))))) := by
  obtain ⟨b, r, ro⟩ := env
  rcases r with _ | u
  · cases b <;>
      simp [buildCSP, cspDirectives, cspDirectivesWith, joinSep, cspTail,
        ALLOWED_SCRIPT_HOSTS, ALLOWED_STYLE_HOSTS, ALLOWED_IMG_HOSTS, ALLOWED_FONT_HOSTS,
        ALLOWED_CONNECT_HOSTS, SEG1, SEG2, SEG3, List.append_assoc]
  · by_cases hu : u = "" <;>
      cases b <;>
        simp [buildCSP, cspDirectives, cspDirectivesWith, joinSep, cspTail, hu,
          ALLOWED_SCRIPT_HOSTS, ALLOWED_STYLE_HOSTS, ALLOWED_IMG_HOSTS, ALLOWED_FONT_HOSTS,
          ALLOWED_CONNECT_HOSTS, SEG1, SEG2, SEG3, List.append_assoc]

/-! ### Helper lemmas: substring occurrence analysis -/

theorem suff_of_suff_append (p a b : List Char) (h : p <:+ a ++ b)
    (hl : p.length ≤ b.length) : p <:+ b := by
  have h1 : p.reverse <+: (a ++ b).reverse := List.reverse_prefix.mpr h
  rw [List.reverse_append] at h1
  have h2 : p.reverse <+: b.reverse :=
    ( List.isPrefix_append_of_length (by simpa using hl)).mp h1
  exact List.reverse_prefix.mp h2

theorem infix_append_tri {p a b : List Char} (h : p <:+: a ++ b) :
    p <:+: a ∨ p <:+: b ∨
      ∃ k, 0 < k ∧ k < p.length ∧ p.take k <:+ a ∧ p.drop k <+: b := by
  obtain ⟨s, t, hst⟩ := h
  by_cases h1 : s.length + p.length ≤ a.length
  · left
    have h2 : s ++ p <+: a :=
      ( List.isPrefix_append_of_length (by simp only [List.length_append]; omega)).mp ⟨t, hst⟩
    obtain ⟨t2, ht2⟩ := h2
    exact ⟨s, t2, ht2⟩
  · by_cases h2 : a.length ≤ s.length
    · right; left
      have hpt : p ++ t <:+ a ++ b := ⟨s, by rw [← List.append_assoc]; exact hst⟩
      have hlen : (p ++ t).length ≤ b.length := by
        have htot := congrArg List.length hst
        simp only [List.length_append] at htot ⊢
        omega
      obtain ⟨s2, hs2⟩ := suff_of_suff_append _ _ _ hpt hlen
      exact ⟨s2, t, by rw [List.append_assoc]; exact hs2⟩
    · right; right
      push_neg at h1 h2
      refine ⟨a.length - s.length, by omega, by omega, ?_, ?_⟩
      all_goals
        have hsplit : (s ++ p.take (a.length - s.length))
            ++ (p.drop (a.length - s.length) ++ t) = a ++ b := by
          rw [List.append_assoc, ← List.append_assoc (p.take (a.length - s.length)),
            List.take_append_drop, ← List.append_assoc]
          exact hst
      all_goals
        have hlen2 : (s ++ p.take (a.length - s.length)).length = a.length := by
          simp only [List.length_append, List.length_take]
          omega
      all_goals
        obtain ⟨ha, hb⟩ := List.append_inj hsplit hlen2
      · exact ⟨s, ha⟩
      · exact ⟨t, hb⟩

theorem reportUri_not_infix_core (m C : List Char)
    (hm : ∀ c ∈ m, c ∈ B64CHARS)
    (hC1 : ¬ REPPAT <:+: C)
    (hC2 : ∀ k, k < 7 → 1 ≤ k → ¬ REPPAT.drop k <+: C) :
    ¬ REPPAT <:+: ADATA ++ (m ++ (BDATA ++ (m ++ C))) := by
  have hdashm : '-' ∉ m := fun hd => absurd (hm '-' hd) (by decide)
  have hlen10 : REPPAT.length = 10 := by decide
  intro h
  rcases infix_append_tri h with h | h | ⟨k, hk0, hk9, hsuf, hpre⟩
  · exact absurd h (by decide)
  · rcases infix_append_tri h with h | h | ⟨k, hk0, hk9, hsuf, hpre⟩
    · exact hdashm ( List.IsInfix.subset h (by decide))
    · rcases infix_append_tri h with h | h | ⟨k, hk0, hk9, hsuf, hpre⟩
      · exact absurd h (by decide)
      · rcases infix_append_tri h with h | h | ⟨k, hk0, hk9, hsuf, hpre⟩
        · exact hdashm ( List.IsInfix.subset h (by decide))
        · exact hC1 h
        · rw [hlen10] at hk9
          interval_cases k <;>
            first
              | exact absurd hpre (hC2 _ (by omega) (by omega))
              | exact hdashm ( List.IsSuffix.subset hsuf (by decide))
      · rw [hlen10] at hk9
        interval_cases k <;> exact absurd hsuf (by decide)
    · rw [hlen10] at hk9
      interval_cases k <;>
        exact absurd (( List.isPrefix_append_of_length (by decide)).mp hpre) (by decide)
  · rw [hlen10] at hk9
    interval_cases k <;> exact absurd hsuf (by decide)

/-- Extensionality for the string model: equal character data, equal strings. -/
theorem strExt (s t : String) (h : s.data = t.data) : s = t := by
  cases s; cases t; exact congrArg String.mk h

theorem buildCSP_decomp_grouped (env : SecurityEnv) (n : String) :
    (buildCSP env n).data =
      ADATA ++ (n.data ++ (BDATA ++ (n.data
        ++ ("'".data ++ (SEG3.data ++ (cspTail env).data))))) := by
  rw [buildCSP_decomp]
  rfl

theorem takeWhile_append_stop {p : Char → Bool} :
    ∀ (a b : List Char), a.all p = false → (a ++ b).takeWhile p = a.takeWhile p
  | [], _, h => by simp at h
  | c :: a2, b, h => by
      simp only [List.cons_append, List.takeWhile_cons]
      by_cases hc : p c
      · have h2 : a2.all p = false := by
          simp only [List.all_cons, hc, Bool.true_and] at h
          exact h
        simp only [hc, if_true]
        rw [takeWhile_append_stop a2 b h2]
      · simp [hc]

/-! ### Claim theorems -/

/-- C2: for every byte list (every byte below 256, as drawn from a
`Uint8Array`), `generateNonce` returns exactly `ceil(n/3)*4 = ((n+2)/3)*4`
characters, all from the Base64 alphabet `[A-Za-z0-9+/=]`; in particular no
output character is a semicolon, a double or single quote, or whitespace, so
the nonce is always valid inside a CSP quoted token. -/
theorem C2_generateNonce_shape (randomBytes : List (Fin 256)) :
    (generateNonce randomBytes).length = (randomBytes.length + 2) / 3 * 4 ∧
    (generateNonce randomBytes).data.all
      (fun c => decide (c ∈ B64CHARS)
        && decide (c ∉ [';', '"', '\'', ' ', '\t', '\n', '\r'])) = true := by
  refine ⟨generateNonce_length randomBytes, List.all_eq_true.mpr ?_⟩
  intro c hc
  have h1 : c ∈ B64CHARS := generateNonce_chars randomBytes c hc
  have h2 : c ∉ [';', '"', '\'', ' ', '\t', '\n', '\r'] :=
    (by decide : ∀ x ∈ B64CHARS, x ∉ [';', '"', '\'', ' ', '\t', '\n', '\r']) c h1
  simp [h1, h2]

/-- C9: `buildCSP` performs no validation, escaping or re-encoding of its
nonce argument: for every string `n` (quotes, semicolons and spaces included)
the script-src and style-src directives contain the characters of `n`
verbatim inside `'nonce-n'`, and the string `'nonce-n'` occurs verbatim in
the built policy. -/
theorem C9_nonce_verbatim (env : SecurityEnv) (n : String) :
    (cspDirectives env n)[1]? = some ("script-src 'self' 'nonce-" ++ n ++ "'") ∧
    (cspDirectives env n)[2]?
      = some ("style-src 'self' https://fonts.googleapis.com 'nonce-" ++ n ++ "'") ∧
    ("'nonce-" ++ n ++ "'").data <:+: (buildCSP env n).data := by
  refine ⟨rfl, rfl, ?_⟩
  rw [buildCSP_decomp_grouped]
  refine ⟨SEG1.data,
    ("; style-src 'self' https://fonts.googleapis.com 'nonce-" : String).data
      ++ (n.data ++ ("'".data ++ (SEG3.data ++ (cspTail env).data))), ?_⟩
  simp only [String.data_append, List.append_assoc]
  rfl

/-- C5: for fixed allowlists, report configuration and nonce, toggling only
the production flag from false to true inserts exactly one directive,
`upgrade-insecure-requests`, at position 10 of the directive list (between
`form-action` and any `report-uri`), leaving every other directive unchanged,
and the built string is the join of exactly that list. -/
theorem C5_prod_toggle (r : Option String) (ro : Bool) (n : String) :
    cspDirectives ⟨true, r, ro⟩ n
        = (cspDirectives ⟨false, r, ro⟩ n).take 10
            ++ "upgrade-insecure-requests" :: (cspDirectives ⟨false, r, ro⟩ n).drop 10 ∧
    (cspDirectives ⟨true, r, ro⟩ n).length = (cspDirectives ⟨false, r, ro⟩ n).length + 1 ∧
    buildCSP ⟨true, r, ro⟩ n
        = joinSep "; " ((cspDirectives ⟨false, r, ro⟩ n).take 10
            ++ "upgrade-insecure-requests" :: (cspDirectives ⟨false, r, ro⟩ n).drop 10) := by
  rcases r with _ | u
  · exact ⟨rfl, rfl, rfl⟩
  · by_cases hu : u = ""
    · subst hu
      exact ⟨rfl, rfl, rfl⟩
    · refine ⟨?_, ?_, ?_⟩ <;>
        · simp only [buildCSP, cspDirectives, cspDirectivesWith, if_neg hu]
          rfl

/-- C7 counterexample: instantiating the `buildCSP` directive template with an
empty image allowlist still emits the `img-src` directive (as the malformed
sourceless string `"img-src "`) instead of omitting it. -/
theorem C7_counterexample :
    (cspDirectivesWith ["'self'"] ["'self'"] [] ["'self'"] ["'self'"]
        ⟨false, none, false⟩ "NONCE")[3]? = some "img-src " ∧
    ((cspDirectivesWith ["'self'"] ["'self'"] [] ["'self'"] ["'self'"]
        ⟨false, none, false⟩ "NONCE").map directiveName)[3]? = some "img-src" :=
  ⟨rfl, rfl⟩

/-- C7 amended: `buildCSP` has no omission logic — every category directive is
always emitted — but each of the program's five configured allowlists is
non-empty, so every emitted category directive carries at least one source. -/
theorem C7_never_omits (env : SecurityEnv) (n : String) :
    ALLOWED_SCRIPT_HOSTS ≠ [] ∧ ALLOWED_STYLE_HOSTS ≠ [] ∧ ALLOWED_IMG_HOSTS ≠ [] ∧
    ALLOWED_FONT_HOSTS ≠ [] ∧ ALLOWED_CONNECT_HOSTS ≠ [] ∧
    (cspDirectives env n)[3]? = some ("img-src " ++ joinSep " " ALLOWED_IMG_HOSTS) ∧
    (cspDirectives env n)[4]? = some ("font-src " ++ joinSep " " ALLOWED_FONT_HOSTS) ∧
    (cspDirectives env n)[5]? = some ("connect-src " ++ joinSep " " ALLOWED_CONNECT_HOSTS) :=
  ⟨by decide, by decide, by decide, by decide, by decide, rfl, rfl, rfl⟩

/-- C10: the middleware overwrites any client-supplied `x-csp-nonce` request
header with the freshly generated nonce before forwarding, forwards every
other request header unchanged, and leaves the pass-through response body and
status untouched. -/
theorem C10_request_forwarding (env : SecurityEnv) (reqHeaders : List (String × String))
    (randomBytes : List (Fin 256)) :
    getHeader (middleware env reqHeaders randomBytes).requestHeaders "x-csp-nonce"
        = some (generateNonce randomBytes) ∧
    (∀ k : String, k ≠ "x-csp-nonce" →
      getHeader (middleware env reqHeaders randomBytes).requestHeaders k
        = getHeader reqHeaders k) ∧
    (middleware env reqHeaders randomBytes).status = 200 ∧
    (middleware env reqHeaders randomBytes).body = none := by
  refine ⟨?_, ?_, rfl, rfl⟩
  · exact getHeader_setHeader_same reqHeaders "x-csp-nonce" (generateNonce randomBytes)
  · intro k hk
    exact getHeader_setHeader_ne reqHeaders "x-csp-nonce" (generateNonce randomBytes) k hk

/-- Witness for C10: a concrete non-nonce request header survives forwarding
unchanged. -/
theorem C10_request_forwarding_witness :
    getHeader (middleware ⟨false, none, false⟩ [("accept", "text/html")] []).requestHeaders
        "accept"
      = getHeader [("accept", "text/html")] "accept" :=
  (C10_request_forwarding ⟨false, none, false⟩ [("accept", "text/html")] []).2.1 "accept"
    (by decide)

/-- C1: one nonce per request, used consistently — the value inside
`'nonce-…'` in both the script-src and style-src directives of the emitted
CSP header, the `x-csp-nonce` response header, and the `x-csp-nonce` header
forwarded on the request are all the same string. -/
theorem C1_nonce_consistency (env : SecurityEnv) (reqHeaders : List (String × String))
    (randomBytes : List (Fin 256)) :
    getHeader (middleware env reqHeaders randomBytes).headers "x-csp-nonce"
        = some (generateNonce randomBytes) ∧
    getHeader (middleware env reqHeaders randomBytes).requestHeaders "x-csp-nonce"
        = some (generateNonce randomBytes) ∧
    getHeader (middleware env reqHeaders randomBytes).headers
        (if env.useReportOnly then "Content-Security-Policy-Report-Only"
         else "Content-Security-Policy")
        = some (buildCSP env (generateNonce randomBytes)) ∧
    (cspDirectives env (generateNonce randomBytes))[1]?
        = some ("script-src 'self' 'nonce-" ++ generateNonce randomBytes ++ "'") ∧
    (cspDirectives env (generateNonce randomBytes))[2]?
        = some ("style-src 'self' https://fonts.googleapis.com 'nonce-"
            ++ generateNonce randomBytes ++ "'") := by
  refine ⟨?_, ?_, ?_, rfl, rfl⟩
  · exact getHeader_setHeader_same _ "x-csp-nonce" (generateNonce randomBytes)
  · exact getHeader_setHeader_same reqHeaders "x-csp-nonce" (generateNonce randomBytes)
  · cases hro : env.useReportOnly <;>
      · simp only [middleware, applySecurityHeaders, hro, if_true, if_false,
          Bool.false_eq_true, Bool.true_eq_false]
        rw [getHeader_setHeader_ne _ _ _ _ (by decide), getHeader_setHeader_same]

/-- C4: `applySecurityHeaders` sets exactly one of the two CSP header
variants: report-only mode sets `Content-Security-Policy-Report-Only` and
leaves `Content-Security-Policy` unset, enforced mode does the opposite — on
any response that carries neither header beforehand the two are mutually
exclusive. -/
theorem C4_csp_mode_exclusive (env : SecurityEnv) (res : NextResponseT)
    (cspValue nonce : String)
    (h1 : getHeader res.headers "Content-Security-Policy" = none)
    (h2 : getHeader res.headers "Content-Security-Policy-Report-Only" = none) :
    getHeader (applySecurityHeaders env res cspValue nonce).headers
        (if env.useReportOnly then "Content-Security-Policy-Report-Only"
         else "Content-Security-Policy") = some cspValue ∧
    getHeader (applySecurityHeaders env res cspValue nonce).headers
        (if env.useReportOnly then "Content-Security-Policy"
         else "Content-Security-Policy-Report-Only") = none := by
  cases hro : env.useReportOnly <;>
    · simp only [applySecurityHeaders, hro, if_true, if_false,
        Bool.false_eq_true, Bool.true_eq_false]
      constructor
      · rw [getHeader_setHeader_ne _ _ _ _ (by decide), getHeader_setHeader_same]
      · iterate 10 rw [getHeader_setHeader_ne _ _ _ _ (by decide)]
        first
          | exact h1
          | exact h2

/-- Witness for C4: in report-only mode on the fresh middleware response, the
report-only header carries the policy and the enforcing header is absent. -/
theorem C4_csp_mode_exclusive_witness :
    getHeader (applySecurityHeaders ⟨false, none, true⟩ (nextResponse []) "CSP" "N").headers
        "Content-Security-Policy-Report-Only" = some "CSP" ∧
    getHeader (applySecurityHeaders ⟨false, none, true⟩ (nextResponse []) "CSP" "N").headers
        "Content-Security-Policy" = none := by
  have h := C4_csp_mode_exclusive ⟨false, none, true⟩ (nextResponse []) "CSP" "N" rfl rfl
  exact ⟨h.1, h.2⟩

/-- C3: `buildCSP` produces its directives in the fixed order default-src,
script-src, style-src, img-src, font-src, connect-src, object-src,
frame-ancestors, base-uri, form-action, then upgrade-insecure-requests
exactly in production, then report-uri exactly when configured non-empty,
joined with the separator `"; "`, and no directive name repeats. -/
theorem C3_directive_order (env : SecurityEnv) (n : String) :
    buildCSP env n = joinSep "; " (cspDirectives env n) ∧
    (cspDirectives env n).map directiveName
      = ["default-src", "script-src", "style-src", "img-src", "font-src", "connect-src",
         "object-src", "frame-ancestors", "base-uri", "form-action"]
          ++ (if env.isProd then ["upgrade-insecure-requests"] else [])
          ++ (match env.cspReportUri with
              | some uri => if uri = "" then [] else ["report-uri"]
              | none => []) ∧
    ((cspDirectives env n).map directiveName).Nodup := by
  have h1 : directiveName ("script-src " ++ joinSep " " ALLOWED_SCRIPT_HOSTS
      ++ " 'nonce-" ++ n ++ "'") = "script-src" := by
    apply strExt
    show ("script-src " ++ joinSep " " ALLOWED_SCRIPT_HOSTS ++ " 'nonce-" ++ n
      ++ "'").data.takeWhile (fun c => c != ' ') = "script-src".data
    simp only [String.data_append, List.append_assoc]
    rw [takeWhile_append_stop _ _ (by decide)]
    decide
  have h2 : directiveName ("style-src " ++ joinSep " " ALLOWED_STYLE_HOSTS
      ++ " 'nonce-" ++ n ++ "'") = "style-src" := by
    apply strExt
    show ("style-src " ++ joinSep " " ALLOWED_STYLE_HOSTS ++ " 'nonce-" ++ n
      ++ "'").data.takeWhile (fun c => c != ' ') = "style-src".data
    simp only [String.data_append, List.append_assoc]
    rw [takeWhile_append_stop _ _ (by decide)]
    decide
  have h3 : ∀ u : String, directiveName ("report-uri " ++ u) = "report-uri" := by
    intro u
    apply strExt
    show ("report-uri " ++ u).data.takeWhile (fun c => c != ' ') = "report-uri".data
    simp only [String.data_append]
    rw [takeWhile_append_stop _ _ (by decide)]
    decide
  obtain ⟨b, r, ro⟩ := env
  have hmap : (cspDirectives ⟨b, r, ro⟩ n).map directiveName
      = ["default-src", "script-src", "style-src", "img-src", "font-src", "connect-src",
         "object-src", "frame-ancestors", "base-uri", "form-action"]
          ++ (if b then ["upgrade-insecure-requests"] else [])
          ++ (match r with
              | some uri => if uri = "" then [] else ["report-uri"]
              | none => []) := by
    rcases r with _ | u
    · cases b <;>
        · simp only [cspDirectives, cspDirectivesWith, List.map_append, List.map_cons,
            List.map_nil, h1, h2, Bool.false_eq_true, Bool.true_eq_false, if_true, if_false,
            eq_self_iff_true]
          rfl
    · by_cases hu : u = ""
      · subst hu
        cases b <;>
          · simp only [cspDirectives, cspDirectivesWith, List.map_append, List.map_cons,
              List.map_nil, h1, h2, Bool.false_eq_true, Bool.true_eq_false, if_true, if_false,
              eq_self_iff_true]
            rfl
      · cases b <;>
          · simp only [cspDirectives, cspDirectivesWith, if_neg hu, List.map_append,
              List.map_cons, List.map_nil, h1, h2, h3, Bool.false_eq_true, Bool.true_eq_false,
              if_true, if_false, eq_self_iff_true]
            rfl
  refine ⟨rfl, hmap, ?_⟩
  rw [hmap]
  rcases r with _ | u
  · cases b <;> decide
  · by_cases hu : u = ""
    · subst hu
      cases b <;> decide
    · cases b <;>
        · simp only [if_neg hu]
          decide

/-- C8 counterexample: the claim says every path containing an `assets` path
segment is excluded, but the matcher's lookahead only tests literal prefixes
of the pathname — `img/assets/logo` (pathname `/img/assets/logo`) contains an
`assets` segment yet matches the matcher, so the middleware does run on it. -/
theorem C8_assets_segment_counterexample :
    ("img/assets/logo" = "img" ++ "/assets/" ++ "logo") ∧
    matcherMatches "img/assets/logo" = true ∧
    handleRequest ⟨false, none, false⟩ [] [] "img/assets/logo"
      = some (middleware ⟨false, none, false⟩ [] []) :=
  ⟨rfl, by decide, rfl⟩

/-- C8 amended: the matcher excludes exactly the paths whose pathname (after
the leading slash) starts with one of the literals `_next/static`,
`_next/image`, `favicon.ico`, `sitemap.xml`, `robots.txt`, `manifest.json`,
`assets`, or ends in a dot followed by a listed static extension; on excluded
paths the handler performs no middleware work (`none`), on all others it runs
the middleware. -/
theorem C8_matcher_semantics (env : SecurityEnv) (reqHeaders : List (String × String))
    (randomBytes : List (Fin 256)) (rest : String) :
    (handleRequest env reqHeaders randomBytes rest = none ↔
      (∃ p ∈ EXCLUDED_PREFIXES, p.data <+: rest.data) ∨
      (∃ e ∈ STATIC_EXTENSIONS, ("." ++ e).data <:+ rest.data)) ∧
    (matcherMatches rest = true →
      handleRequest env reqHeaders randomBytes rest
        = some (middleware env reqHeaders randomBytes)) := by
  have key1 : handleRequest env reqHeaders randomBytes rest = none
      ↔ matcherMatches rest = false := by
    cases hm : matcherMatches rest <;> simp [handleRequest, hm]
  have key2 : matcherMatches rest = false
      ↔ ((∃ p ∈ EXCLUDED_PREFIXES, p.data <+: rest.data)
          ∨ (∃ e ∈ STATIC_EXTENSIONS, ("." ++ e).data <:+ rest.data)) := by
    simp [matcherMatches]
    rw [or_iff_not_imp_left]
    push_neg
    rfl
  refine ⟨key1.trans key2, fun hm => ?_⟩
  simp [handleRequest, hm]

/-- Witness for C8: the matcher admits the document path `about`, so the
middleware runs there, and excludes `_next/static/chunk.js`, where no
middleware work happens. -/
theorem C8_matcher_semantics_witness :
    handleRequest ⟨false, none, false⟩ [] [] "about"
        = some (middleware ⟨false, none, false⟩ [] []) ∧
    handleRequest ⟨false, none, false⟩ [] [] "_next/static/chunk.js" = none :=
  ⟨(C8_matcher_semantics ⟨false, none, false⟩ [] [] "about").2 (by decide),
   (C8_matcher_semantics ⟨false, none, false⟩ [] [] "_next/static/chunk.js").1.mpr
     (Or.inl ⟨"_next/static", by decide, ⟨"/chunk.js".data, by decide⟩⟩)⟩

set_option maxRecDepth 16384 in
/-- C6: with no (or an empty) report URI configured, the policy built from a
`generateNonce` nonce and the program's allowlists contains no occurrence of
the substring `report-uri`; with a non-empty report URI `U` configured, the
built policy is exactly the unconfigured policy followed by `"; report-uri U"`,
i.e. `report-uri U` is its final directive. -/
theorem C6_report_uri (env : SecurityEnv) (randomBytes : List (Fin 256)) (U : String) :
    (env.cspReportUri = none →
      ¬ ("report-uri".data <:+: (buildCSP env (generateNonce randomBytes)).data)) ∧
    (U ≠ "" →
      buildCSP { env with cspReportUri := some U } (generateNonce randomBytes)
          = buildCSP { env with cspReportUri := none } (generateNonce randomBytes)
              ++ "; report-uri " ++ U ∧
      (cspDirectives { env with cspReportUri := some U }
          (generateNonce randomBytes)).getLast?
        = some ("report-uri " ++ U)) := by
  obtain ⟨bb, r, ro⟩ := env
  constructor
  · intro hr
    have hr2 : r = none := hr
    subst hr2
    rw [buildCSP_decomp_grouped]
    cases bb
    · rw [show cspTail ⟨false, none, ro⟩ = "" from rfl]
      exact reportUri_not_infix_core _ _ (generateNonce_chars randomBytes)
        (by decide) (by decide)
    · rw [show cspTail ⟨true, none, ro⟩ = "; upgrade-insecure-requests" from rfl]
      exact reportUri_not_infix_core _ _ (generateNonce_chars randomBytes)
        (by decide) (by decide)
  · intro hU
    constructor
    · apply strExt
      simp only [String.data_append]
      rw [buildCSP_decomp_grouped, buildCSP_decomp_grouped]
      cases bb <;>
        · simp only [cspTail, if_neg hU, String.data_append, List.append_assoc]
          rfl
    · cases bb <;>
        · simp only [cspDirectives, cspDirectivesWith, if_neg hU]
          rfl

/-- Witness for C6: concrete instances of both directions — no `report-uri`
substring without configuration, and the exact final directive with the
report endpoint `https://example.test/r`. -/
theorem C6_report_uri_witness :
    (¬ ("report-uri".data
        <:+: (buildCSP ⟨false, none, false⟩ (generateNonce [])).data)) ∧
    buildCSP ⟨false, some "https://example.test/r", false⟩ (generateNonce [])
        = buildCSP ⟨false, none, false⟩ (generateNonce []) ++ "; report-uri "
            ++ "https://example.test/r" ∧
    (cspDirectives ⟨false, some "https://example.test/r", false⟩
        (generateNonce [])).getLast?
      = some ("report-uri " ++ "https://example.test/r") := by
  have h := (C6_report_uri ⟨false, none, false⟩ [] "https://example.test/r").2 (by decide)
  exact ⟨(C6_report_uri ⟨false, none, false⟩ [] "x").1 rfl, h.1, h.2⟩

end Middleware
